import Mathlib

/-!
# testnet-services: fee randomizer, periodic sender and faucet

A shallow embedding of

* `eth-tx-filler/gasprice/gasprice.go` (the `Randomizer`),
* `eth-tx-filler/tx/tx.go` (the periodic `Sender`),
* `simple-eth-faucet/faucet.go` (the on-demand `faucet`),

with explicit state passing.  A Go panic is the `Except.error` side of
`Panics`; a returned Go `error` is an `Option Err` / `Except Err` value; a
call that may never return has an `Option` result, `none` standing for "does
not return".  Calls into collaborators (ledger client, wallet, entropy
source, JSON decoder) are answered by function-valued records, and every
call, log line and response write is recorded, in program order, in a list of
`Event`s.
-/

/-! ## Shared data -/

/-- A Go `error` value.  `ext` is an error handed back by a collaborator or
library; the other two are the errors built with `fmt.Errorf` in
`faucet.sendTx`. -/
inductive Err where
  | ext (msg : String)
  | waitingForTx (hashHex : String) (cause : String)
  | txFailed (hashHex : String)
deriving DecidableEq, Repr

/-- The two hexadecimal digits that the verb `%x` prints for one byte. -/
def hexByte (b : Nat) : String :=
  String.mk [Nat.digitChar (b / 16 % 16), Nat.digitChar (b % 16)]

/-- The verb `%x` applied to a Go string: the hexadecimal form of its bytes. -/
def hexOfString (s : String) : String :=
  String.join (s.toUTF8.toList.map fun b => hexByte b.toNat)

/-- The method `Error()` of an error value. -/
def Err.Error : Err → String
  | .ext msg => msg
  | .waitingForTx h cause => "error waiting for tx " ++ hexOfString h ++ ": " ++ cause
  | .txFailed h => "tx " ++ hexOfString h ++ " failed"

/-- A computation that may panic; the error side carries the panic message. -/
abbrev Panics (α : Type) := Except String α

/-- An account address (`common.Address`), as a number. -/
abbrev Address := Nat

/-- The value of `accounts.Account` that the code uses. -/
structure Account where
  Address : Address
deriving DecidableEq, Repr

/-- The fields of `types.Transaction`: those set by `types.NewTransaction`,
and the signature values, which only a signer sets. -/
structure Transaction where
  nonce : Nat
  To : Address
  amount : Int
  gasLimit : Nat
  gasPrice : Int
  data : List Nat
  vrs : Option (Nat × Nat × Nat)
deriving DecidableEq, Repr

/-- The constructor `types.NewTransaction(nonce, to, amount, gasLimit, gasPrice, data)`. -/
def NewTransaction (nonce : Nat) (dest : Address) (amount : Int) (gasLimit : Nat)
    (gasPrice : Int) (data : List Nat) : Transaction :=
  { nonce := nonce, To := dest, amount := amount, gasLimit := gasLimit,
    gasPrice := gasPrice, data := data, vrs := none }

/-- The field of `types.Receipt` that the code reads. -/
structure Receipt where
  Status : Nat
deriving DecidableEq, Repr

/-- The JSON body of a faucet answer. -/
structure response where
  TxHash : String
deriving DecidableEq, Repr

/-- The JSON body of a faucet request. -/
structure request where
  Address : String
deriving DecidableEq, Repr

/-- An argument of a `log.Printf` call: an error, a `*big.Int`, a string, the
hash of a transaction, or `Int64()` of a `*big.Int`. -/
inductive LogArg where
  | err (e : Err)
  | int (v : Int)
  | str (s : String)
  | hashOf (tx : Transaction)
  | int64Of (v : Int)
deriving DecidableEq, Repr

/-- The observable actions of the three components, in program order. -/
inductive Event where
  | goRandomizeLoop
  | goSubmitLoop
  | closeQuit
  | log (format : String) (args : List LogArg)
  | readGasPrice (v : Int)
  | pendingNonceAt (a : Address)
  | suggestGasPrice
  | signTx (acct : Account) (tx : Transaction) (chainID : Int)
  | sendTransaction (tx : Transaction)
  | waitMined (tx : Transaction)
  | jsonDecode (body : String)
  | httpError (msg : String) (code : Nat)
  | fprintf (format : String) (args : List LogArg)
  | headerSet (key : String) (value : String)
  | jsonEncode (res : response)
deriving DecidableEq, Repr

/-- State of a channel that is only ever closed (`quit chan struct{}`). -/
inductive Chan where
  | opened
  | closed
deriving DecidableEq, Repr

/-- The builtin `close(c)`: closing a closed channel panics. -/
def Chan.close : Chan → Panics Chan
  | .opened => .ok .closed
  | .closed => .error "close of closed channel"

/-! ## gasprice.go -/

/-- One `io.ReadFull(rand.Reader, bytes)` inside `rand.Int`: the reader fails,
or it fills the buffer, and `raw` is the buffer read as a big-endian number. -/
inductive Read where
  | fail (e : Err)
  | bytes (raw : Nat)
deriving DecidableEq, Repr

/-- The method `BitLen` of a non-negative `*big.Int`, with `fuel` halvings
allowed. -/
def bitLenAux : Nat → Nat → Nat
  | 0, _ => 0
  | fuel + 1, n => if n = 0 then 0 else bitLenAux fuel (n / 2) + 1

/-- The method `BitLen` of a non-negative `*big.Int`: the number of binary
digits of `n`, and 0 for 0. -/
def bitLen (n : Nat) : Nat :=
  bitLenAux n n

/-- The rejection loop of `crypto/rand.Int` for a buffer of `k` bytes of
which the first keeps `b` bits: a failed read returns the error; a filled
buffer is masked and returned if it is below `max`, and otherwise the loop
reads again.  When every read of the list is rejected the call has not
returned. -/
def randIntLoop (max : Int) (k b : Nat) : List Read → Option (Except Err Int)
  | [] => none
  | .fail e :: _ => some (.error e)
  | .bytes raw :: rest =>
    let n : Nat := raw % 256 ^ k % 2 ^ (8 * (k - 1) + b)
    if (n : Int) < max then some (.ok n) else randIntLoop max k b rest

/-- The library function `crypto/rand.Int(rand.Reader, max)`, given the reads
that the reader serves: it panics when `max <= 0`; it returns 0 without
reading when `max - 1` has bit length 0; otherwise it runs the rejection loop
for values of that bit length. -/
def randInt (reads : List Read) (max : Int) : Panics (Option (Except Err Int)) :=
  if max ≤ 0 then .error "crypto/rand: argument to Int is <= 0"
  else
    let n := max - 1
    let bits := bitLen n.toNat
    if bits = 0 then .ok (some (.ok 0))
    else
      let k := (bits + 7) / 8
      let b := if bits % 8 = 0 then 8 else bits % 8
      .ok (randIntLoop max k b reads)

/-- The struct `Randomizer`; `mu` guards `gasPrice` and has no state of its
own between calls. -/
structure Randomizer where
  randomizeInterval : Int
  maxGasPrice : Int
  minGasPrice : Int
  running : Bool
  gasPrice : Int
  quit : Chan
deriving DecidableEq, Repr

/-- The constructor `NewRandomizer(interval, max, min)`. -/
def NewRandomizer (interval : Int) (max : Int) (min : Int) : Randomizer :=
  { randomizeInterval := interval
    maxGasPrice := max
    minGasPrice := min
    running := false
    gasPrice := min
    quit := .opened }

/-- The method `Randomizer.Start`. -/
def Randomizer.Start (r : Randomizer) : Randomizer × List Event :=
  if r.running then (r, [])
  else ({ r with running := true }, [.goRandomizeLoop])

/-- The method `Randomizer.Stop`. -/
def Randomizer.Stop (r : Randomizer) : Panics (Randomizer × List Event) :=
  if !r.running then .ok (r, [])
  else match r.quit.close with
    | .error p => .error p
    | .ok q => .ok ({ r with quit := q }, [.closeQuit])

/-- The method `Randomizer.GasPrice`: the value read and the state after. -/
def Randomizer.GasPrice (r : Randomizer) : Int × Randomizer :=
  (r.gasPrice, r)

/-- The method `Randomizer.randomizeGasPrice`, given the reads that the
entropy source serves during the call: a panic; or no return (`none`), when
`rand.Int` does not return; or the state after, the error returned and the
log lines. -/
def Randomizer.randomizeGasPrice (r : Randomizer) (reads : List Read) :
    Panics (Option (Randomizer × Option Err × List Event)) :=
  let diff := r.maxGasPrice - r.minGasPrice
  match randInt reads diff with
  | .error p => .error p
  | .ok none => .ok none
  | .ok (some (.error err)) => .ok (some (r, some err, []))
  | .ok (some (.ok n)) =>
    let r1 := { r with gasPrice := n + r.minGasPrice }
    .ok (some (r1, none, [.log "new gas price = %v" [.int r1.gasPrice]]))

/-- What the `select` of the randomize loop receives: a tick of the ticker
(with the reads that the entropy source serves in that iteration), or the
closing of `quit`. -/
inductive Select where
  | tick (reads : List Read)
  | quit
deriving DecidableEq, Repr

/-- The `for` loop of `Randomizer.startRandomizeLoop`, run over the things
its `select` receives; when the list ends the loop is waiting in `select`,
and the result is the state reached.  The result is `none` when an iteration
does not return. -/
def Randomizer.selectLoop (r : Randomizer) :
    List Select → Panics (Option (Randomizer × List Event))
  | [] => .ok (some (r, []))
  | .quit :: _ => .ok (some (r, []))
  | .tick reads :: rest =>
    match r.randomizeGasPrice reads with
    | .error p => .error p
    | .ok none => .ok none
    | .ok (some (r1, err, t)) =>
      let t1 := match err with
        | some e => t ++ [.log "error randomizing gas price: %v" [.err e]]
        | none => t
      match r1.selectLoop rest with
      | .error p => .error p
      | .ok none => .ok none
      | .ok (some (r2, t2)) => .ok (some (r2, t1 ++ t2))

/-- The library function `time.NewTicker(d)`: it panics when `d <= 0`. -/
def NewTicker (d : Int) : Panics Unit :=
  if d ≤ 0 then .error "non-positive interval for NewTicker" else .ok ()

/-- The method `Randomizer.startRandomizeLoop`: it creates the ticker and
runs the loop. -/
def Randomizer.startRandomizeLoop (r : Randomizer) (sel : List Select) :
    Panics (Option (Randomizer × List Event)) :=
  match NewTicker r.randomizeInterval with
  | .error p => .error p
  | .ok _ => r.selectLoop sel

/-! ## Collaborators of the sender and of the faucet -/

/-- The answers of the ledger client during one tick or one request, as its
calls return them.  `TransactionReceipt tx` is the receipt that polling for
the receipt of `tx` ends with, and `none` when no poll ever yields one. -/
structure EthClient where
  PendingNonceAt : Address → Except Err Nat
  SuggestGasPrice : Except Err Int
  SendTransaction : Transaction → Option Err
  TransactionReceipt : Transaction → Option Receipt

/-- The library function `bind.WaitMined(context.Background(), client, tx)`:
it polls `client.TransactionReceipt` until a poll yields a receipt, which it
returns with a nil error.  Its only error return is `ctx.Err()` once the
context is done, and the background context is never done; so it returns a
receipt, or it does not return (`none`). -/
def WaitMined (client : EthClient) (tx : Transaction) : Option (Except Err Receipt) :=
  match client.TransactionReceipt tx with
  | some receipt => some (.ok receipt)
  | none => none

/-- The method of `accounts.Wallet` that the code calls. -/
structure Wallet where
  SignTx : Account → Transaction → Int → Except Err Transaction

/-- The interface `GasPricer`: the value its method `GasPrice` returns when
the tick reads it. -/
structure GasPricer where
  GasPrice : Int
deriving DecidableEq, Repr

/-- A `Randomizer` seen through the interface `GasPricer`. -/
def Randomizer.asGasPricer (r : Randomizer) : GasPricer :=
  { GasPrice := r.GasPrice.1 }

/-! ## tx.go -/

/-- The struct `Sender`. -/
structure Sender where
  account : Account
  wallet : Wallet
  chainID : Int
  client : EthClient
  txp : GasPricer
  running : Bool
  sendInterval : Int
  quit : Chan

/-- The constructor `NewSender`. -/
def NewSender (account : Account) (wallet : Wallet) (chainID : Int) (client : EthClient)
    (txp : GasPricer) (interval : Int) : Sender :=
  { account := account
    wallet := wallet
    chainID := chainID
    client := client
    txp := txp
    running := false
    sendInterval := interval
    quit := .opened }

/-- The method `Sender.Start`. -/
def Sender.Start (s : Sender) : Sender × List Event :=
  if s.running then (s, [])
  else ({ s with running := true }, [.goSubmitLoop])

/-- The method `Sender.Stop`. -/
def Sender.Stop (s : Sender) : Panics (Sender × List Event) :=
  if !s.running then .ok (s, [])
  else match s.quit.close with
    | .error p => .error p
    | .ok q => .ok ({ s with quit := q }, [.closeQuit])

/-- The method `Sender.createTx`: its result and the calls it makes. -/
def Sender.createTx (s : Sender) : Except Err Transaction × List Event :=
  let gasLimit := 21000
  let gasPrice := s.txp.GasPrice
  match s.client.PendingNonceAt s.account.Address with
  | .error err =>
    (.error err, [.readGasPrice gasPrice, .pendingNonceAt s.account.Address])
  | .ok nonce =>
    let tx := NewTransaction nonce s.account.Address 0 gasLimit gasPrice []
    let t := [.readGasPrice gasPrice, .pendingNonceAt s.account.Address,
      .signTx s.account tx s.chainID]
    match s.wallet.SignTx s.account tx s.chainID with
    | .error err => (.error err, t)
    | .ok signedTx => (.ok signedTx, t)

/-- What one tick of the sender amounts to: the Sender after it, what it did,
in order, and whether `sendTx` returns. -/
structure Tick where
  after : Sender
  trace : List Event
  returns : Bool

/-- The method `Sender.sendTx`, one tick. -/
def Sender.sendTx (s : Sender) : Tick :=
  match s.createTx with
  | (.error err, t) =>
    { after := s, trace := t ++ [.log "error creating tx: %v" [.err err]], returns := true }
  | (.ok signedTx, t) =>
    match s.client.SendTransaction signedTx with
    | some err =>
      { after := s
        trace := t ++ [.sendTransaction signedTx, .log "error sending tx: %v" [.err err]]
        returns := true }
    | none =>
      match WaitMined s.client signedTx with
      | none =>
        { after := s
          trace := t ++ [.sendTransaction signedTx, .waitMined signedTx]
          returns := false }
      | some (.error err) =>
        { after := s
          trace := t ++ [.sendTransaction signedTx, .waitMined signedTx,
            .log "error waiting for tx %x: %v" [.hashOf signedTx, .err err]]
          returns := true }
      | some (.ok receipt) =>
        if receipt.Status = 0 then
          { after := s
            trace := t ++ [.sendTransaction signedTx, .waitMined signedTx,
              .log "tx %x failed" [.hashOf signedTx]]
            returns := true }
        else
          let t1 := t ++ [.sendTransaction signedTx, .waitMined signedTx,
            .log "confirmed tx %x with gasPrice = %v"
              [.hashOf signedTx, .int signedTx.gasPrice],
            .suggestGasPrice]
          match s.client.SuggestGasPrice with
          | .error err =>
            { after := s
              trace := t1 ++ [.log "error querying gas price oracle: %v" [.err err]]
              returns := true }
          | .ok gp =>
            { after := s
              trace := t1 ++ [.log "suggested gas price = %v" [.int gp]]
              returns := true }

/-! ## faucet.go -/

/-- Library functions used by the faucet: `tx.Hash().Hex()`,
`common.HexToAddress`, and `json.NewDecoder(body).Decode(&req)`, which gives
the value left in `req` and the error. -/
structure Lib where
  HashHex : Transaction → String
  HexToAddress : String → Address
  Decode : String → request × Option Err

/-- The struct `faucet`. -/
structure faucet where
  client : EthClient
  account : Account
  wallet : Wallet
  network : Int
  payout : Int
  port : Int

/-- The part of `http.Request` that the handler reads. -/
structure Request where
  Method : String
  Body : String
deriving DecidableEq, Repr

/-- The method `faucet.createTx`. -/
def faucet.createTx (f : faucet) (dest : Address) : Except Err Transaction × List Event :=
  match f.client.PendingNonceAt f.account.Address with
  | .error err => (.error err, [.pendingNonceAt f.account.Address])
  | .ok nonce =>
    let gasLimit := 21000
    match f.client.SuggestGasPrice with
    | .error err => (.error err, [.pendingNonceAt f.account.Address, .suggestGasPrice])
    | .ok gasPrice =>
      (.ok (NewTransaction nonce dest f.payout gasLimit gasPrice []),
        [.pendingNonceAt f.account.Address, .suggestGasPrice])

/-- The method `faucet.signTx`. -/
def faucet.signTx (f : faucet) (tx : Transaction) : Except Err Transaction × List Event :=
  match f.wallet.SignTx f.account tx f.network with
  | .error err => (.error err, [.signTx f.account tx f.network])
  | .ok signedTx => (.ok signedTx, [.signTx f.account tx f.network])

/-- The method `faucet.sendTx`: the string and the error it returns, or
`none` when it does not return; and what it did. -/
def faucet.sendTx (f : faucet) (lib : Lib) (tx : Transaction) :
    Option (String × Option Err) × List Event :=
  match f.client.SendTransaction tx with
  | some err => (some ("", some err), [.sendTransaction tx])
  | none =>
    match WaitMined f.client tx with
    | none => (none, [.sendTransaction tx, .waitMined tx])
    | some (.error err) =>
      (some ("", some (.waitingForTx (lib.HashHex tx) err.Error)),
        [.sendTransaction tx, .waitMined tx])
    | some (.ok receipt) =>
      if receipt.Status = 0 then
        (some ("", some (.txFailed (lib.HashHex tx))), [.sendTransaction tx, .waitMined tx])
      else
        (some (lib.HashHex tx, none),
          [.sendTransaction tx, .waitMined tx,
            .log "confirmed tx %x with gasPrice = %v"
              [.str (lib.HashHex tx), .int64Of tx.gasPrice]])

/-- The method `faucet.faucetHandler`: everything it does for one request.
When `sendTx` does not return, neither does the handler, and the list ends
with what `sendTx` did. -/
def faucet.faucetHandler (f : faucet) (lib : Lib) (r : Request) : List Event :=
  if r.Method = "GET" then
    [.fprintf ("Hello! this is a simple ETH faucet.\n" ++
      "Request ETH by making a POST request to the root URL with your ethereum address\n" ++
      "Current payout is %v wei\n") [.int f.payout]]
  else if r.Method = "POST" then
    let (req, derr) := lib.Decode r.Body
    let t0 : List Event := match derr with
      | some err => [.jsonDecode r.Body, .httpError err.Error 500]
      | none => [.jsonDecode r.Body]
    match f.createTx (lib.HexToAddress req.Address) with
    | (.error err, t1) =>
      t0 ++ t1 ++ [.httpError "Internal Server Error" 500,
        .log "Error occured: %v \n" [.err err]]
    | (.ok tx, t1) =>
      match f.signTx tx with
      | (.error _, t2) => t0 ++ t1 ++ t2 ++ [.httpError "Internal Server Error" 500]
      | (.ok tx, t2) =>
        match f.sendTx lib tx with
        | (none, t3) => t0 ++ t1 ++ t2 ++ t3
        | (some (_, some err), t3) =>
          t0 ++ t1 ++ t2 ++ t3 ++ [.httpError "Internal Server Error" 500,
            .log "Error sending transaction: %v" [.err err]]
        | (some (hash, none), t3) =>
          let res : response := { TxHash := hash }
          t0 ++ t1 ++ t2 ++ t3 ++
            [.headerSet "Content-Type" "application/json", .jsonEncode res]
  else
    [.httpError "Invalid request method" 405]

/-! ## Call sequences -/

/-- The method `Randomizer.Start` called `n` times in a row. -/
def Randomizer.startTimes : Nat → Randomizer → Randomizer × List Event
  | 0, r => (r, [])
  | n + 1, r =>
    let p := r.Start
    let q := Randomizer.startTimes n p.1
    (q.1, p.2 ++ q.2)

/-- The method `Sender.Start` called `n` times in a row. -/
def Sender.startTimes : Nat → Sender → Sender × List Event
  | 0, s => (s, [])
  | n + 1, s =>
    let p := s.Start
    let q := Sender.startTimes n p.1
    (q.1, p.2 ++ q.2)

/-- The method `Randomizer.Stop` called twice in a row. -/
def Randomizer.stopTwice (r : Randomizer) : Panics (Randomizer × List Event) :=
  match r.Stop with
  | .error p => .error p
  | .ok (r1, t1) =>
    match r1.Stop with
    | .error p => .error p
    | .ok (r2, t2) => .ok (r2, t1 ++ t2)

/-- The method `Sender.Stop` called twice in a row. -/
def Sender.stopTwice (s : Sender) : Panics (Sender × List Event) :=
  match s.Stop with
  | .error p => .error p
  | .ok (s1, t1) =>
    match s1.Stop with
    | .error p => .error p
    | .ok (s2, t2) => .ok (s2, t1 ++ t2)

/-! ## Vocabulary of the statements -/

/-- The fee bounds that a randomization step preserves. -/
def Randomizer.feeInBounds (r : Randomizer) : Prop :=
  r.minGasPrice ≤ r.gasPrice ∧ (r.gasPrice < r.maxGasPrice ∨ r.gasPrice = r.minGasPrice)

/-- A submission to the ledger. -/
def Event.isSubmit : Event → Bool
  | .sendTransaction _ => true
  | _ => false

/-- A call into a collaborator (fee oracle, ledger client, wallet); log lines
are not calls. -/
def Event.isCall : Event → Bool
  | .readGasPrice _ => true
  | .pendingNonceAt _ => true
  | .suggestGasPrice => true
  | .signTx _ _ _ => true
  | .sendTransaction _ => true
  | .waitMined _ => true
  | _ => false

/-- Submission and mined-wait of `tx` both succeed and the receipt status is
not 0. -/
def faucet.minedOk (f : faucet) (tx : Transaction) : Prop :=
  f.client.SendTransaction tx = none ∧
    ∃ rc, f.client.TransactionReceipt tx = some rc ∧ rc.Status ≠ 0

/-- Nonce lookup, fee suggestion, signing, submission and mined-wait all
succeed for a payout to `dest`, with `signed` the signed transaction, and the
receipt status is not 0. -/
def faucet.confirms (f : faucet) (dest : Address) (signed : Transaction) : Prop :=
  ∃ n g, f.client.PendingNonceAt f.account.Address = .ok n ∧
    f.client.SuggestGasPrice = .ok g ∧
    f.wallet.SignTx f.account (NewTransaction n dest f.payout 21000 g []) f.network
      = .ok signed ∧
    f.minedOk signed

/-- Nonce lookup, fee suggestion, signing and submission all succeed for a
payout to `dest`, with `signed` the signed transaction, and no poll ever
yields a receipt for it. -/
def faucet.waitsForever (f : faucet) (dest : Address) (signed : Transaction) : Prop :=
  ∃ n g, f.client.PendingNonceAt f.account.Address = .ok n ∧
    f.client.SuggestGasPrice = .ok g ∧
    f.wallet.SignTx f.account (NewTransaction n dest f.payout 21000 g []) f.network
      = .ok signed ∧
    f.client.SendTransaction signed = none ∧
    f.client.TransactionReceipt signed = none

/-! ## Sample collaborators -/

/-- A Randomizer with bounds 100 and 1000 in a given state. -/
def sampleRandomizer (running : Bool) (fee : Int) (quit : Chan) : Randomizer :=
  { randomizeInterval := 30
    maxGasPrice := 1000
    minGasPrice := 100
    running := running
    gasPrice := fee
    quit := quit }

/-- A ledger client whose calls all succeed: pending nonce 7, suggested fee
3, receipt status 1. -/
def sampleClient : EthClient :=
  { PendingNonceAt := fun _ => .ok 7
    SuggestGasPrice := .ok 3
    SendTransaction := fun _ => none
    TransactionReceipt := fun _ => some { Status := 1 } }

/-- A wallet whose signer succeeds and fills in signature values. -/
def sampleWallet : Wallet :=
  { SignTx := fun _ tx chainID => .ok { tx with vrs := some (chainID.toNat, 1, 1) } }

/-- A ledger client with given answers to the nonce lookup, the fee
suggestion and the submission, and a given end of the polling for the
receipt. -/
def sampleClientWith (nonce : Except Err Nat) (fee : Except Err Int) (send : Option Err)
    (receipt : Option Receipt) : EthClient :=
  { PendingNonceAt := fun _ => nonce
    SuggestGasPrice := fee
    SendTransaction := fun _ => send
    TransactionReceipt := fun _ => receipt }

/-- A wallet whose signer fails. -/
def sampleWalletLocked : Wallet :=
  { SignTx := fun _ _ _ => .error (.ext "authentication needed") }

/-- A fresh sender on chain 4 for account 11, with a given wallet and ledger
client, reading its fee from a Randomizer whose current fee is 640. -/
def sampleSenderWith (wallet : Wallet) (client : EthClient) : Sender :=
  NewSender { Address := 11 } wallet 4 client
    (sampleRandomizer true 640 .opened).asGasPricer 5

/-- The sample sender with the sample wallet and client. -/
def sampleSender : Sender :=
  sampleSenderWith sampleWallet sampleClient

/-- A faucet on chain 4 for account 11 paying out 1 unit, with a given ledger
client. -/
def sampleFaucetWith (client : EthClient) : faucet :=
  { client := client
    account := { Address := 11 }
    wallet := sampleWallet
    network := 4
    payout := 1
    port := 8080 }

/-- The sample faucet with the sample client. -/
def sampleFaucet : faucet :=
  sampleFaucetWith sampleClient

/-- Stand-ins for the library functions.  Decoding the body "not json" fails
and leaves `req` at its zero value, whose empty address string converts to
the zero address; any other body is taken as the address string itself. -/
def sampleLib : Lib :=
  { HashHex := fun _ => "0x5e1f"
    HexToAddress := fun a => a.length
    Decode := fun body =>
      if body = "not json" then
        ({ Address := "" }, some (.ext "invalid character"))
      else ({ Address := body }, none) }

/-! ## Lemmas on the randomizer -/

theorem bitLen_ne_zero (n : Nat) (h : n ≠ 0) : bitLen n ≠ 0 := by
  obtain ⟨m, rfl⟩ : ∃ m, n = m + 1 := ⟨n - 1, by omega⟩
  simp [bitLen, bitLenAux]

theorem bitLenAux_spec (fuel : Nat) : ∀ n, n ≤ fuel →
    n < 2 ^ bitLenAux fuel n ∧ (n ≠ 0 → 2 ^ (bitLenAux fuel n - 1) ≤ n) := by
  induction fuel with
  | zero =>
    intro n hn
    have : n = 0 := by omega
    subst this
    simp [bitLenAux]
  | succ f ih =>
    intro n hn
    by_cases h0 : n = 0
    · subst h0
      simp [bitLenAux]
    · simp only [bitLenAux, h0, if_false, Nat.add_sub_cancel]
      obtain ⟨h1, h2⟩ := ih (n / 2) (by omega)
      refine ⟨?_, fun _ => ?_⟩
      · rw [pow_succ]
        omega
      · by_cases h3 : n / 2 = 0
        · simp [h3, bitLenAux]
          cases f <;> simp [bitLenAux] <;> omega
        · have h4 := h2 h3
          have h5 : bitLenAux f (n / 2) ≠ 0 := by
            cases f with
            | zero => omega
            | succ g => simp [bitLenAux, h3]
          obtain ⟨m, hm⟩ : ∃ m, bitLenAux f (n / 2) = m + 1 := ⟨_, (Nat.succ_pred h5).symm⟩
          rw [hm] at h4 ⊢
          simp only [Nat.add_sub_cancel] at h4
          rw [pow_succ]
          omega

theorem bitLen_spec (n : Nat) :
    n < 2 ^ bitLen n ∧ (n ≠ 0 → 2 ^ (bitLen n - 1) ≤ n) :=
  bitLenAux_spec n n (le_refl n)

theorem randIntLoop_bound (max : Int) (k b : Nat) (reads : List Read) (n : Int)
    (h : randIntLoop max k b reads = some (.ok n)) : 0 ≤ n ∧ n < max := by
  induction reads with
  | nil => simp [randIntLoop] at h
  | cons x rest ih =>
    cases x with
    | fail e => simp [randIntLoop] at h
    | bytes raw =>
      simp only [randIntLoop] at h
      split at h
      · rename_i hlt
        simp only [Option.some.injEq, Except.ok.injEq] at h
        subst h
        exact ⟨Int.ofNat_nonneg _, hlt⟩
      · exact ih h

theorem randInt_bound (reads : List Read) (max n : Int)
    (h : randInt reads max = .ok (some (.ok n))) : 0 ≤ n ∧ n < max := by
  unfold randInt at h
  by_cases hmax : max ≤ 0
  · simp [hmax] at h
  · simp only [hmax, if_false] at h
    split at h
    · simp only [Except.ok.injEq, Option.some.injEq] at h
      subst h
      omega
    · simp only [Except.ok.injEq] at h
      exact randIntLoop_bound _ _ _ _ _ h

theorem randInt_no_panic (reads : List Read) (max : Int) (hmax : 0 < max) :
    ∃ o, randInt reads max = .ok o := by
  unfold randInt
  have h : ¬ max ≤ 0 := by omega
  simp only [h, if_false]
  split
  · exact ⟨_, rfl⟩
  · exact ⟨_, rfl⟩

theorem randomizeGasPrice_keeps_bounds (r r1 : Randomizer) (reads : List Read)
    (e : Option Err) (t : List Event) (hb : r.feeInBounds)
    (h : r.randomizeGasPrice reads = .ok (some (r1, e, t))) :
    r1.feeInBounds ∧ r1.minGasPrice = r.minGasPrice ∧ r1.maxGasPrice = r.maxGasPrice := by
  unfold Randomizer.randomizeGasPrice at h
  cases hr : randInt reads (r.maxGasPrice - r.minGasPrice) with
  | error p => simp [hr] at h
  | ok o =>
    cases o with
    | none => simp [hr] at h
    | some v =>
      cases v with
      | error err =>
        simp [hr] at h
        obtain ⟨rfl, -, -⟩ := h
        exact ⟨hb, rfl, rfl⟩
      | ok n =>
        have hn := randInt_bound _ _ _ hr
        simp [hr] at h
        obtain ⟨rfl, -, -⟩ := h
        refine ⟨⟨?_, Or.inl ?_⟩, rfl, rfl⟩ <;> simp only <;> omega

theorem selectLoop_keeps_bounds (sel : List Select) :
    ∀ (r r2 : Randomizer) (t : List Event),
      r.feeInBounds → r.selectLoop sel = .ok (some (r2, t)) →
      r2.feeInBounds ∧ r2.minGasPrice = r.minGasPrice ∧ r2.maxGasPrice = r.maxGasPrice := by
  induction sel with
  | nil =>
    intro r r2 t hb h
    simp [Randomizer.selectLoop] at h
    obtain ⟨rfl, -⟩ := h
    exact ⟨hb, rfl, rfl⟩
  | cons x rest ih =>
    intro r r2 t hb h
    cases x with
    | quit =>
      simp [Randomizer.selectLoop] at h
      obtain ⟨rfl, -⟩ := h
      exact ⟨hb, rfl, rfl⟩
    | tick reads =>
      rw [Randomizer.selectLoop] at h
      cases hstep : r.randomizeGasPrice reads with
      | error p => simp [hstep] at h
      | ok o =>
        cases o with
        | none => simp [hstep] at h
        | some res =>
          obtain ⟨r1, e, t0⟩ := res
          simp only [hstep] at h
          obtain ⟨hb1, hmin1, hmax1⟩ :=
            randomizeGasPrice_keeps_bounds r r1 reads e t0 hb hstep
          cases hrest : r1.selectLoop rest with
          | error p => simp [hrest] at h
          | ok o2 =>
            cases o2 with
            | none => simp [hrest] at h
            | some res2 =>
              obtain ⟨r3, t3⟩ := res2
              simp only [hrest] at h
              have h3 := ih r1 r3 t3 hb1 hrest
              injection h with h
              injection h with h
              injection h with hr _
              subst hr
              exact ⟨h3.1, h3.2.1.trans hmin1, h3.2.2.trans hmax1⟩

theorem selectLoop_completes (sel : List Select) :
    ∀ (r : Randomizer), r.minGasPrice < r.maxGasPrice →
      (∀ reads, Select.tick reads ∈ sel →
        randInt reads (r.maxGasPrice - r.minGasPrice) ≠ .ok none) →
      ∃ r2 t, r.selectLoop sel = .ok (some (r2, t)) ∧
        r2.minGasPrice = r.minGasPrice ∧ r2.maxGasPrice = r.maxGasPrice := by
  induction sel with
  | nil => intro r _ _; exact ⟨r, [], rfl, rfl, rfl⟩
  | cons x rest ih =>
    intro r hlt hret
    cases x with
    | quit => exact ⟨r, [], rfl, rfl, rfl⟩
    | tick reads =>
      obtain ⟨o, ho⟩ := randInt_no_panic reads (r.maxGasPrice - r.minGasPrice) (by omega)
      have hrest : ∀ rd, Select.tick rd ∈ rest →
          randInt rd (r.maxGasPrice - r.minGasPrice) ≠ .ok none :=
        fun rd hrd => hret rd (List.mem_cons_of_mem _ hrd)
      cases o with
      | none => exact absurd ho (hret reads (List.mem_cons_self _ _))
      | some v =>
        cases v with
        | error err =>
          obtain ⟨r2, t, h2, hmin, hmax⟩ := ih r hlt hrest
          rw [Randomizer.selectLoop]
          simp only [Randomizer.randomizeGasPrice, ho, h2]
          exact ⟨_, _, rfl, hmin, hmax⟩
        | ok n =>
          obtain ⟨r2, t, h2, hmin, hmax⟩ :=
            ih { r with gasPrice := n + r.minGasPrice } hlt hrest
          rw [Randomizer.selectLoop]
          simp only [Randomizer.randomizeGasPrice, ho, h2]
          exact ⟨_, _, rfl, hmin, hmax⟩

theorem randomizer_startTimes_running (n : Nat) :
    ∀ r : Randomizer, r.running = true → Randomizer.startTimes n r = (r, []) := by
  induction n with
  | zero => intro r _; rfl
  | succ k ih =>
    intro r hr
    have hs : r.Start = (r, []) := by simp [Randomizer.Start, hr]
    simp [Randomizer.startTimes, hs, ih r hr]

theorem sender_startTimes_running (n : Nat) :
    ∀ s : Sender, s.running = true → Sender.startTimes n s = (s, []) := by
  induction n with
  | zero => intro s _; rfl
  | succ k ih =>
    intro s hs
    have h1 : s.Start = (s, []) := by simp [Sender.Start, hs]
    simp [Sender.startTimes, h1, ih s hs]

/-! ## The schedulers: Start and Stop -/

/-- C1 (evaluation of the code): for all fee bounds and all sender
parameters, Stop before Start, once or twice, returns the state as it was;
but the call sequence Start, Stop, Stop panics at the second Stop with "close
of closed channel", for the Randomizer and for the Sender alike: Stop closes
`quit` and leaves `running` set, so the second Stop closes it again. -/
theorem stop_twice_after_start_panics (interval max min : Int) (account : Account)
    (wallet : Wallet) (chainID : Int) (client : EthClient) (txp : GasPricer)
    (sendInterval : Int) :
    ((NewRandomizer interval max min).Stop = .ok (NewRandomizer interval max min, []) ∧
      (NewRandomizer interval max min).stopTwice = .ok (NewRandomizer interval max min, []) ∧
      (NewRandomizer interval max min).Start.1.stopTwice
        = .error "close of closed channel") ∧
    ((NewSender account wallet chainID client txp sendInterval).Stop
        = .ok (NewSender account wallet chainID client txp sendInterval, []) ∧
      (NewSender account wallet chainID client txp sendInterval).stopTwice
        = .ok (NewSender account wallet chainID client txp sendInterval, []) ∧
      (NewSender account wallet chainID client txp sendInterval).Start.1.stopTwice
        = .error "close of closed channel") := by
  refine ⟨⟨rfl, rfl, rfl⟩, ⟨rfl, rfl, rfl⟩⟩

/-- C5: for every n ≥ 1, calling Start n times in a row on a fresh Randomizer
or a fresh Sender launches exactly one loop and ends in the fresh state with
`running` set; the first call alone does that, and Start on a scheduler that is
already running launches nothing and returns the state as it was. -/
theorem start_n_times_launches_one_loop (n : Nat) (hn : 1 ≤ n) (interval max min : Int)
    (account : Account) (wallet : Wallet) (chainID : Int) (client : EthClient)
    (txp : GasPricer) (sendInterval : Int) :
    (Randomizer.startTimes n (NewRandomizer interval max min)
        = ({ randomizeInterval := interval, maxGasPrice := max, minGasPrice := min,
              running := true, gasPrice := min, quit := .opened }, [Event.goRandomizeLoop]) ∧
      (NewRandomizer interval max min).Start
        = ({ randomizeInterval := interval, maxGasPrice := max, minGasPrice := min,
              running := true, gasPrice := min, quit := .opened }, [Event.goRandomizeLoop]) ∧
      ∀ r : Randomizer, r.running = true → r.Start = (r, [])) ∧
    (Sender.startTimes n (NewSender account wallet chainID client txp sendInterval)
        = ({ account := account, wallet := wallet, chainID := chainID, client := client,
              txp := txp, running := true, sendInterval := sendInterval, quit := .opened },
            [Event.goSubmitLoop]) ∧
      (NewSender account wallet chainID client txp sendInterval).Start
        = ({ account := account, wallet := wallet, chainID := chainID, client := client,
              txp := txp, running := true, sendInterval := sendInterval, quit := .opened },
            [Event.goSubmitLoop]) ∧
      ∀ s : Sender, s.running = true → s.Start = (s, [])) := by
  obtain ⟨k, rfl⟩ : ∃ k, n = k + 1 := ⟨n - 1, by omega⟩
  refine ⟨⟨?_, rfl, ?_⟩, ⟨?_, rfl, ?_⟩⟩
  · have h := randomizer_startTimes_running k
      { randomizeInterval := interval, maxGasPrice := max, minGasPrice := min,
              running := true, gasPrice := min, quit := .opened } rfl
    simp only [Randomizer.startTimes]
    have hs : (NewRandomizer interval max min).Start
        = ({ randomizeInterval := interval, maxGasPrice := max, minGasPrice := min,
              running := true, gasPrice := min, quit := .opened }, [Event.goRandomizeLoop]) :=
      rfl
    rw [hs]
    simp only [h, List.append_nil]
  · intro r hr
    simp [Randomizer.Start, hr]
  · have h := sender_startTimes_running k
      { account := account, wallet := wallet, chainID := chainID, client := client,
              txp := txp, running := true, sendInterval := sendInterval, quit := .opened } rfl
    simp only [Sender.startTimes]
    have hs : (NewSender account wallet chainID client txp sendInterval).Start
        = ({ account := account, wallet := wallet, chainID := chainID, client := client,
              txp := txp, running := true, sendInterval := sendInterval, quit := .opened },
            [Event.goSubmitLoop]) := rfl
    rw [hs]
    simp only [h, List.append_nil]
  · intro s hs
    simp [Sender.Start, hs]

/-- C5, at n = 3 with bounds 100 and 1000 and the sample sender; and Start on
a Randomizer that is already running. -/
theorem start_n_times_launches_one_loop_witness :
    Randomizer.startTimes 3 (NewRandomizer 30 1000 100)
        = (sampleRandomizer true 100 .opened, [Event.goRandomizeLoop]) ∧
    Sender.startTimes 3 sampleSender
        = ({ account := { Address := 11 }, wallet := sampleWallet, chainID := 4,
              client := sampleClient, txp := { GasPrice := 640 }, running := true,
              sendInterval := 5, quit := .opened }, [Event.goSubmitLoop]) ∧
    (sampleRandomizer true 640 .opened).Start = (sampleRandomizer true 640 .opened, []) :=
  ⟨(start_n_times_launches_one_loop 3 (by decide) 30 1000 100 { Address := 11 } sampleWallet 4
      sampleClient { GasPrice := 250 } 5).1.1,
   (start_n_times_launches_one_loop 3 (by decide) 30 1000 100 { Address := 11 } sampleWallet 4
      sampleClient (sampleRandomizer true 640 .opened).asGasPricer 5).2.1,
   (start_n_times_launches_one_loop 3 (by decide) 30 1000 100 { Address := 11 } sampleWallet 4
      sampleClient (sampleRandomizer true 640 .opened).asGasPricer 5).1.2.2
      (sampleRandomizer true 640 .opened) rfl⟩

/-! ## The randomizer: the fee and its bounds -/

/-- C2 (evaluation of the code): with equal bounds, whatever the entropy
source would serve, a randomization step on the fresh Randomizer panics
inside `rand.Int`, whose argument `max - min` is 0. -/
theorem randomize_with_equal_bounds_panics (interval m : Int) (reads : List Read) :
    (NewRandomizer interval m m).randomizeGasPrice reads
      = .error "crypto/rand: argument to Int is <= 0" := by
  simp [Randomizer.randomizeGasPrice, NewRandomizer, randInt]

/-- C3: for bounds 0 ≤ min ≤ max, start from `NewRandomizer interval max min`
and let the randomize loop run over any sequence of ticks, whatever the
entropy source serves in them.  Every number that `rand.Int` returns for the
range the code passes lies in `[0, max - min)`, and in every state that a run
reaches, `GasPrice` returns a value v with min ≤ v and (v < max or v = min).
With a positive interval and min < max, a run in which every call of
`rand.Int` returns does reach a state. -/
theorem gasPrice_stays_within_bounds (interval max min : Int) (_hmin : 0 ≤ min)
    (_hle : min ≤ max) (sel : List Select) :
    (∀ reads n, randInt reads (max - min) = .ok (some (.ok n)) → 0 ≤ n ∧ n < max - min) ∧
    (∀ r t, (NewRandomizer interval max min).startRandomizeLoop sel = .ok (some (r, t)) →
      min ≤ r.GasPrice.1 ∧ (r.GasPrice.1 < max ∨ r.GasPrice.1 = min)) ∧
    (0 < interval → min < max →
      (∀ reads, Select.tick reads ∈ sel → randInt reads (max - min) ≠ .ok none) →
      ∃ r t, (NewRandomizer interval max min).startRandomizeLoop sel = .ok (some (r, t))) := by
  refine ⟨fun reads n h => randInt_bound reads _ n h, ?_, ?_⟩
  · intro r t h
    have h0 : (NewRandomizer interval max min).feeInBounds :=
      ⟨le_refl _, Or.inr rfl⟩
    unfold Randomizer.startRandomizeLoop at h
    cases hk : NewTicker (NewRandomizer interval max min).randomizeInterval with
    | error p => simp [hk] at h
    | ok u =>
      simp only [hk] at h
      obtain ⟨hb, h1, h2⟩ :=
        selectLoop_keeps_bounds sel (NewRandomizer interval max min) r t h0 h
      have h1 : r.minGasPrice = min := h1
      have h2 : r.maxGasPrice = max := h2
      unfold Randomizer.feeInBounds at hb
      rw [h1, h2] at hb
      exact hb
  · intro hint hlt hret
    obtain ⟨r, t, h, -, -⟩ :=
      selectLoop_completes sel (NewRandomizer interval max min) hlt hret
    refine ⟨r, t, ?_⟩
    have hi : ¬ interval ≤ 0 := by omega
    simp only [Randomizer.startRandomizeLoop, NewTicker, NewRandomizer, hi, if_false]
    exact h

/-- C3, at interval 30 and bounds 100 and 1000.  The range is 900, so each
read is two bytes of which ten bits are kept.  Over three ticks the reader
serves 5; fails; serves 1023, which is rejected, and then 1923, which is
kept as 899: the loop reaches the fee 999. -/
theorem gasPrice_stays_within_bounds_witness :
    ((100 : Int) ≤ (sampleRandomizer false 999 .opened).GasPrice.1 ∧
      ((sampleRandomizer false 999 .opened).GasPrice.1 < 1000 ∨
        (sampleRandomizer false 999 .opened).GasPrice.1 = 100)) ∧
    ((0 : Int) ≤ 899 ∧ (899 : Int) < 1000 - 100) ∧
    (∃ r t, (NewRandomizer 30 1000 100).startRandomizeLoop
      [.tick [.bytes 5], .tick [.fail (.ext "EOF")], .tick [.bytes 1023, .bytes 1923]]
        = .ok (some (r, t))) :=
  ⟨(gasPrice_stays_within_bounds 30 1000 100 (by decide) (by decide)
      [.tick [.bytes 5], .tick [.fail (.ext "EOF")], .tick [.bytes 1023, .bytes 1923]]).2.1
      (sampleRandomizer false 999 .opened)
      [.log "new gas price = %v" [.int 105],
        .log "error randomizing gas price: %v" [.err (.ext "EOF")],
        .log "new gas price = %v" [.int 999]]
      rfl,
   (gasPrice_stays_within_bounds 30 1000 100 (by decide) (by decide) []).1
      [.bytes 1023, .bytes 1923] 899 rfl,
   (gasPrice_stays_within_bounds 30 1000 100 (by decide) (by decide)
      [.tick [.bytes 5], .tick [.fail (.ext "EOF")], .tick [.bytes 1023, .bytes 1923]]).2.2
      (by decide) (by decide)
      (by
        intro reads hr
        simp only [List.mem_cons, Select.tick.injEq, List.mem_singleton, List.not_mem_nil,
          or_false] at hr
        rcases hr with rfl | rfl | rfl
        · exact fun h => nomatch (rfl : randInt [.bytes 5] (1000 - 100)
            = .ok (some (.ok 5))).symm.trans h
        · exact fun h => nomatch (rfl : randInt [.fail (.ext "EOF")] (1000 - 100)
            = .ok (some (.error (.ext "EOF")))).symm.trans h
        · exact fun h => nomatch (rfl : randInt [.bytes 1023, .bytes 1923] (1000 - 100)
            = .ok (some (.ok 899))).symm.trans h)⟩

/-- C8: in every Randomizer state, a randomization step in which `rand.Int`
returns an error returns that error and leaves the whole state, the fee
included, as it was (with min + 1 < max, a step whose first read fails is
such a step); Start keeps the fee, Stop keeps the fee whenever it returns,
and GasPrice returns the fee and leaves the state as it was. -/
theorem fee_kept_on_failed_draw (r : Randomizer) :
    (∀ reads e, randInt reads (r.maxGasPrice - r.minGasPrice) = .ok (some (.error e)) →
      r.randomizeGasPrice reads = .ok (some (r, some e, []))) ∧
    (∀ e rest, r.minGasPrice + 1 < r.maxGasPrice →
      r.randomizeGasPrice (.fail e :: rest) = .ok (some (r, some e, []))) ∧
    r.Start.1.gasPrice = r.gasPrice ∧
    (∀ r1 t, r.Stop = .ok (r1, t) → r1.gasPrice = r.gasPrice) ∧
    r.GasPrice = (r.gasPrice, r) := by
  refine ⟨?_, ?_, ?_, ?_, rfl⟩
  · intro reads e h
    simp [Randomizer.randomizeGasPrice, h]
  · intro e rest hlt
    have hdiff : ¬ (r.maxGasPrice - r.minGasPrice ≤ 0) := by omega
    have hbits : bitLen (r.maxGasPrice - r.minGasPrice - 1).toNat ≠ 0 :=
      bitLen_ne_zero _ (by omega)
    have h : randInt (.fail e :: rest) (r.maxGasPrice - r.minGasPrice)
        = .ok (some (.error e)) := by
      unfold randInt
      simp only [hdiff, if_false, hbits, randIntLoop]
    simp [Randomizer.randomizeGasPrice, h]
  · unfold Randomizer.Start
    split <;> rfl
  · intro r1 t h
    unfold Randomizer.Stop at h
    split at h
    · injection h with h
      injection h with h1 _
      rw [← h1]
    · cases hq : r.quit.close with
      | error p => simp [hq] at h
      | ok q =>
        simp only [hq] at h
        injection h with h
        injection h with h1 _
        rw [← h1]

/-- C8, on a running Randomizer with bounds 100 and 1000 and fee 640: a step
whose second read fails, after a rejected first one, leaves the state as it
was; Stop leaves the fee at 640; and so does a step whose first read fails,
on the fresh Randomizer. -/
theorem fee_kept_on_failed_draw_witness :
    (sampleRandomizer true 640 .opened).randomizeGasPrice
        [.bytes 1023, .fail (.ext "EOF")]
      = .ok (some (sampleRandomizer true 640 .opened,
          some (.ext "EOF"), [])) ∧
    (sampleRandomizer true 640 .closed).gasPrice = 640 ∧
    (sampleRandomizer false 100 .opened).randomizeGasPrice [.fail (.ext "EOF")]
      = .ok (some (sampleRandomizer false 100 .opened, some (.ext "EOF"), [])) :=
  ⟨(fee_kept_on_failed_draw
      (sampleRandomizer true 640 .opened)).1
      [.bytes 1023, .fail (.ext "EOF")] (.ext "EOF") rfl,
   (fee_kept_on_failed_draw
      (sampleRandomizer true 640 .opened)).2.2.2.1
      (sampleRandomizer true 640 .closed)
      [.closeQuit] rfl,
   (fee_kept_on_failed_draw (sampleRandomizer false 100 .opened)).2.1 (.ext "EOF") []
      (by decide)⟩

/-! ## The periodic sender: one tick -/

/-- C7: in a tick of the Sender whose nonce lookup returns n, the
transaction handed to the signer has nonce n, the sender's own address as
destination, value 0, gas limit 21000, the gas price that `GasPrice` returned
in this tick and an empty payload; it is signed for the sender's account with
the configured chain identifier, `createTx` returns what the signer returns,
and this is the only signing request of the tick. -/
theorem sender_tick_transaction (s : Sender) (n : Nat)
    (hn : s.client.PendingNonceAt s.account.Address = .ok n) :
    s.createTx =
      (s.wallet.SignTx s.account
          { nonce := n, To := s.account.Address, amount := 0, gasLimit := 21000,
            gasPrice := s.txp.GasPrice, data := [], vrs := none } s.chainID,
        [Event.readGasPrice s.txp.GasPrice, Event.pendingNonceAt s.account.Address,
          Event.signTx s.account
            { nonce := n, To := s.account.Address, amount := 0, gasLimit := 21000,
              gasPrice := s.txp.GasPrice, data := [], vrs := none } s.chainID]) ∧
    List.take 3 s.sendTx.2 =
        [Event.readGasPrice s.txp.GasPrice, Event.pendingNonceAt s.account.Address,
          Event.signTx s.account
            { nonce := n, To := s.account.Address, amount := 0, gasLimit := 21000,
              gasPrice := s.txp.GasPrice, data := [], vrs := none } s.chainID] ∧
    ∀ a tx c, Event.signTx a tx c ∈ s.sendTx.2 →
      a = s.account ∧ c = s.chainID ∧
      tx = { nonce := n, To := s.account.Address, amount := 0, gasLimit := 21000,
             gasPrice := s.txp.GasPrice, data := [], vrs := none } := by
  have hc : s.createTx =
      (s.wallet.SignTx s.account
          { nonce := n, To := s.account.Address, amount := 0, gasLimit := 21000,
            gasPrice := s.txp.GasPrice, data := [], vrs := none } s.chainID,
        [Event.readGasPrice s.txp.GasPrice, Event.pendingNonceAt s.account.Address,
          Event.signTx s.account
            { nonce := n, To := s.account.Address, amount := 0, gasLimit := 21000,
              gasPrice := s.txp.GasPrice, data := [], vrs := none } s.chainID]) := by
    simp only [Sender.createTx, hn, NewTransaction]
    cases s.wallet.SignTx s.account
      { nonce := n, To := s.account.Address, amount := 0, gasLimit := 21000,
        gasPrice := s.txp.GasPrice, data := [], vrs := none } s.chainID <;> rfl
  refine ⟨hc, ?_, ?_⟩
  · unfold Sender.sendTx
    rw [hc]
    cases s.wallet.SignTx s.account
      { nonce := n, To := s.account.Address, amount := 0, gasLimit := 21000,
        gasPrice := s.txp.GasPrice, data := [], vrs := none } s.chainID with
    | error e => simp
    | ok signed =>
      simp only
      cases s.client.SendTransaction signed with
      | some e => simp
      | none =>
        simp only [WaitMined]
        cases s.client.TransactionReceipt signed with
        | none => simp
        | some rc =>
          simp only
          split
          · simp
          · cases s.client.SuggestGasPrice <;> simp
  · intro a tx c hmem
    unfold Sender.sendTx at hmem
    rw [hc] at hmem
    cases hsig : s.wallet.SignTx s.account
      { nonce := n, To := s.account.Address, amount := 0, gasLimit := 21000,
        gasPrice := s.txp.GasPrice, data := [], vrs := none } s.chainID with
    | error e =>
      simp [hsig] at hmem
      obtain ⟨h1, h2, h3⟩ := hmem
      exact ⟨h1, h3, h2⟩
    | ok signed =>
      simp only [hsig] at hmem
      cases hsend : s.client.SendTransaction signed with
      | some e =>
        simp [hsend] at hmem
        obtain ⟨h1, h2, h3⟩ := hmem
        exact ⟨h1, h3, h2⟩
      | none =>
        simp only [hsend, WaitMined] at hmem
        cases hwait : s.client.TransactionReceipt signed with
        | none =>
          simp [hwait] at hmem
          obtain ⟨h1, h2, h3⟩ := hmem
          exact ⟨h1, h3, h2⟩
        | some rc =>
          simp only [hwait] at hmem
          split at hmem
          · simp at hmem
            obtain ⟨h1, h2, h3⟩ := hmem
            exact ⟨h1, h3, h2⟩
          · cases hsug : s.client.SuggestGasPrice with
            | error e =>
              simp [hsug] at hmem
              obtain ⟨h1, h2, h3⟩ := hmem
              exact ⟨h1, h3, h2⟩
            | ok gp =>
              simp [hsug] at hmem
              obtain ⟨h1, h2, h3⟩ := hmem
              exact ⟨h1, h3, h2⟩

/-- C7, on the sample sender: pending nonce 7, own address 11, oracle fee 640,
chain 4. -/
theorem sender_tick_transaction_witness :
    sampleSender.createTx =
      (.ok { nonce := 7, To := 11, amount := 0, gasLimit := 21000, gasPrice := 640,
             data := [], vrs := some (4, 1, 1) },
        [Event.readGasPrice 640, Event.pendingNonceAt 11,
          Event.signTx { Address := 11 }
            { nonce := 7, To := 11, amount := 0, gasLimit := 21000, gasPrice := 640,
              data := [], vrs := none } 4]) :=
  (sender_tick_transaction sampleSender 7 rfl).1

/-- C9 (the claim as stated fails here): the sample sender with a ledger
client that accepts the submission and whose polls never yield a receipt.
The tick does not end: `sendTx` does not return, and after the submission and
the start of the wait it makes no call and writes no log line. -/
theorem sender_tick_without_receipt_never_ends :
    (sampleSenderWith sampleWallet
        (sampleClientWith (.ok 7) (.ok 3) none none)).sendTx.returns = false ∧
    (sampleSenderWith sampleWallet
        (sampleClientWith (.ok 7) (.ok 3) none none)).sendTx.trace
      = [Event.readGasPrice 640, Event.pendingNonceAt 11,
          Event.signTx { Address := 11 } (NewTransaction 7 11 0 21000 640 []) 4,
          Event.sendTransaction
            { nonce := 7, To := 11, amount := 0, gasLimit := 21000, gasPrice := 640,
              data := [], vrs := some (4, 1, 1) },
          Event.waitMined
            { nonce := 7, To := 11, amount := 0, gasLimit := 21000, gasPrice := 640,
              data := [], vrs := some (4, 1, 1) }] := by
  constructor <;> rfl

/-- C9 (amended): a tick of the Sender leaves the Sender as it was and
submits at most one transaction, and its calls into the collaborators stop at
the first failure.  After a failed nonce lookup the fee read and the lookup
are the only calls; after a failed signing, those and the signing request;
after a failed submission, those and the one submission; after a receipt with
status 0, those and the wait; in each of these cases the tick ends.  The
mined-wait returns no error: when no poll yields a receipt the tick does not
end, and the submission and the wait are its last calls, with no log line.
The fee suggestion is queried exactly when the receipt has a status other
than 0, and then as the last call of the tick. -/
theorem sender_tick_ends_or_waits (s : Sender) :
    s.sendTx.1 = s ∧
    (s.sendTx.2.filter Event.isSubmit).length ≤ 1 ∧
    (∀ e, s.client.PendingNonceAt s.account.Address = .error e →
      s.sendTx.returns = true ∧
      s.sendTx.2.filter Event.isCall =
        [Event.readGasPrice s.txp.GasPrice, Event.pendingNonceAt s.account.Address]) ∧
    (∀ n e, s.client.PendingNonceAt s.account.Address = .ok n →
      s.wallet.SignTx s.account
        (NewTransaction n s.account.Address 0 21000 s.txp.GasPrice []) s.chainID = .error e →
      s.sendTx.returns = true ∧
      s.sendTx.2.filter Event.isCall =
        [Event.readGasPrice s.txp.GasPrice, Event.pendingNonceAt s.account.Address,
          Event.signTx s.account
            (NewTransaction n s.account.Address 0 21000 s.txp.GasPrice []) s.chainID]) ∧
    (∀ n signed, s.client.PendingNonceAt s.account.Address = .ok n →
      s.wallet.SignTx s.account
        (NewTransaction n s.account.Address 0 21000 s.txp.GasPrice []) s.chainID
          = .ok signed →
      (∀ e, s.client.SendTransaction signed = some e →
        s.sendTx.returns = true ∧
        s.sendTx.2.filter Event.isCall =
          [Event.readGasPrice s.txp.GasPrice, Event.pendingNonceAt s.account.Address,
            Event.signTx s.account
              (NewTransaction n s.account.Address 0 21000 s.txp.GasPrice []) s.chainID,
            Event.sendTransaction signed]) ∧
      (s.client.SendTransaction signed = none →
        s.client.TransactionReceipt signed = none →
        s.sendTx.returns = false ∧
        s.sendTx.2 =
          [Event.readGasPrice s.txp.GasPrice, Event.pendingNonceAt s.account.Address,
            Event.signTx s.account
              (NewTransaction n s.account.Address 0 21000 s.txp.GasPrice []) s.chainID,
            Event.sendTransaction signed, Event.waitMined signed]) ∧
      (∀ rc, s.client.SendTransaction signed = none →
        s.client.TransactionReceipt signed = some rc → rc.Status = 0 →
        s.sendTx.returns = true ∧
        s.sendTx.2.filter Event.isCall =
          [Event.readGasPrice s.txp.GasPrice, Event.pendingNonceAt s.account.Address,
            Event.signTx s.account
              (NewTransaction n s.account.Address 0 21000 s.txp.GasPrice []) s.chainID,
            Event.sendTransaction signed, Event.waitMined signed]) ∧
      (∀ rc, s.client.SendTransaction signed = none →
        s.client.TransactionReceipt signed = some rc → rc.Status ≠ 0 →
        s.sendTx.returns = true ∧
        s.sendTx.2.filter Event.isCall =
          [Event.readGasPrice s.txp.GasPrice, Event.pendingNonceAt s.account.Address,
            Event.signTx s.account
              (NewTransaction n s.account.Address 0 21000 s.txp.GasPrice []) s.chainID,
            Event.sendTransaction signed, Event.waitMined signed,
            Event.suggestGasPrice])) ∧
    (Event.suggestGasPrice ∈ s.sendTx.2 ↔
      ∃ n signed rc, s.client.PendingNonceAt s.account.Address = .ok n ∧
        s.wallet.SignTx s.account
          (NewTransaction n s.account.Address 0 21000 s.txp.GasPrice []) s.chainID
            = .ok signed ∧
        s.client.SendTransaction signed = none ∧
        s.client.TransactionReceipt signed = some rc ∧ rc.Status ≠ 0) ∧
    (∀ tx e, WaitMined s.client tx ≠ some (.error e)) := by
  have hw : ∀ tx e, WaitMined s.client tx ≠ some (.error e) := by
    intro tx e
    unfold WaitMined
    cases s.client.TransactionReceipt tx <;> simp
  cases hn : s.client.PendingNonceAt s.account.Address with
  | error e0 =>
    simp [Sender.sendTx, Sender.createTx, hn, Event.isSubmit, Event.isCall, hw]
  | ok n0 =>
    cases hs : s.wallet.SignTx s.account
        (NewTransaction n0 s.account.Address 0 21000 s.txp.GasPrice []) s.chainID with
    | error e1 =>
      simp [Sender.sendTx, Sender.createTx, hn, hs, Event.isSubmit, Event.isCall, hw]
      refine ⟨?_, ?_⟩ <;> intros <;> subst_vars <;> simp_all
    | ok signed0 =>
      cases hsend : s.client.SendTransaction signed0 with
      | some e2 =>
        simp [Sender.sendTx, Sender.createTx, hn, hs, hsend, Event.isSubmit, Event.isCall, hw]
        refine ⟨?_, ?_⟩ <;> intros <;> subst_vars <;> simp_all
      | none =>
        cases hwait : s.client.TransactionReceipt signed0 with
        | none =>
          have hwm : WaitMined s.client signed0 = none := by simp [WaitMined, hwait]
          simp [Sender.sendTx, Sender.createTx, hn, hs, hsend, hwait, hwm,
            Event.isSubmit, Event.isCall, hw]
          refine ⟨?_, ?_⟩ <;> intros <;> subst_vars <;> simp_all
        | some rc0 =>
          have hwm : WaitMined s.client signed0 = some (.ok rc0) := by
            simp [WaitMined, hwait]
          by_cases hst : rc0.Status = 0
          · simp [Sender.sendTx, Sender.createTx, hn, hs, hsend, hwait, hwm, hst,
              Event.isSubmit, Event.isCall, hw]
            refine ⟨?_, ?_⟩ <;> intros <;> subst_vars <;> simp_all
          · cases hsug : s.client.SuggestGasPrice <;>
              simp [Sender.sendTx, Sender.createTx, hn, hs, hsend, hwait, hwm, hst,
                hsug, Event.isSubmit, Event.isCall, hw] <;>
              refine ⟨?_, ?_⟩ <;> intros <;> subst_vars <;> simp_all

/-- C9 (amended), on six sample senders: a failing nonce lookup, a failing
signer, a refused submission, polls that never yield a receipt, a receipt
with status 0, and a confirmed transaction. -/
theorem sender_tick_ends_or_waits_witness :
    ((sampleSenderWith sampleWallet (sampleClientWith (.error (.ext "timeout")) (.ok 3) none
        (some { Status := 1 }))).sendTx.returns = true ∧
      (sampleSenderWith sampleWallet (sampleClientWith (.error (.ext "timeout")) (.ok 3) none
        (some { Status := 1 }))).sendTx.2.filter Event.isCall
        = [Event.readGasPrice 640, Event.pendingNonceAt 11]) ∧
    ((sampleSenderWith sampleWalletLocked sampleClient).sendTx.returns = true ∧
      (sampleSenderWith sampleWalletLocked sampleClient).sendTx.2.filter Event.isCall
        = [Event.readGasPrice 640, Event.pendingNonceAt 11,
            Event.signTx { Address := 11 } (NewTransaction 7 11 0 21000 640 []) 4]) ∧
    ((sampleSenderWith sampleWallet (sampleClientWith (.ok 7) (.ok 3)
        (some (.ext "nonce too low")) (some { Status := 1 }))).sendTx.returns = true ∧
      (sampleSenderWith sampleWallet (sampleClientWith (.ok 7) (.ok 3)
        (some (.ext "nonce too low")) (some { Status := 1 }))).sendTx.2.filter Event.isCall
        = [Event.readGasPrice 640, Event.pendingNonceAt 11,
            Event.signTx { Address := 11 } (NewTransaction 7 11 0 21000 640 []) 4,
            Event.sendTransaction
              { nonce := 7, To := 11, amount := 0, gasLimit := 21000, gasPrice := 640,
                data := [], vrs := some (4, 1, 1) }]) ∧
    ((sampleSenderWith sampleWallet
        (sampleClientWith (.ok 7) (.ok 3) none none)).sendTx.returns = false ∧
      (sampleSenderWith sampleWallet
        (sampleClientWith (.ok 7) (.ok 3) none none)).sendTx.2
        = [Event.readGasPrice 640, Event.pendingNonceAt 11,
            Event.signTx { Address := 11 } (NewTransaction 7 11 0 21000 640 []) 4,
            Event.sendTransaction
              { nonce := 7, To := 11, amount := 0, gasLimit := 21000, gasPrice := 640,
                data := [], vrs := some (4, 1, 1) },
            Event.waitMined
              { nonce := 7, To := 11, amount := 0, gasLimit := 21000, gasPrice := 640,
                data := [], vrs := some (4, 1, 1) }]) ∧
    ((sampleSenderWith sampleWallet (sampleClientWith (.ok 7) (.ok 3) none
        (some { Status := 0 }))).sendTx.returns = true ∧
      (sampleSenderWith sampleWallet (sampleClientWith (.ok 7) (.ok 3) none
        (some { Status := 0 }))).sendTx.2.filter Event.isCall
        = [Event.readGasPrice 640, Event.pendingNonceAt 11,
            Event.signTx { Address := 11 } (NewTransaction 7 11 0 21000 640 []) 4,
            Event.sendTransaction
              { nonce := 7, To := 11, amount := 0, gasLimit := 21000, gasPrice := 640,
                data := [], vrs := some (4, 1, 1) },
            Event.waitMined
              { nonce := 7, To := 11, amount := 0, gasLimit := 21000, gasPrice := 640,
                data := [], vrs := some (4, 1, 1) }]) ∧
    (sampleSender.sendTx.returns = true ∧
      sampleSender.sendTx.2.filter Event.isCall
        = [Event.readGasPrice 640, Event.pendingNonceAt 11,
            Event.signTx { Address := 11 } (NewTransaction 7 11 0 21000 640 []) 4,
            Event.sendTransaction
              { nonce := 7, To := 11, amount := 0, gasLimit := 21000, gasPrice := 640,
                data := [], vrs := some (4, 1, 1) },
            Event.waitMined
              { nonce := 7, To := 11, amount := 0, gasLimit := 21000, gasPrice := 640,
                data := [], vrs := some (4, 1, 1) },
            Event.suggestGasPrice]) :=
  ⟨(sender_tick_ends_or_waits _).2.2.1 (.ext "timeout") rfl,
   (sender_tick_ends_or_waits _).2.2.2.1 7 (.ext "authentication needed") rfl rfl,
   ((sender_tick_ends_or_waits _).2.2.2.2.1 7 _ rfl rfl).1 (.ext "nonce too low") rfl,
   ((sender_tick_ends_or_waits _).2.2.2.2.1 7 _ rfl rfl).2.1 rfl rfl,
   ((sender_tick_ends_or_waits _).2.2.2.2.1 7 _ rfl rfl).2.2.1 { Status := 0 } rfl rfl rfl,
   ((sender_tick_ends_or_waits _).2.2.2.2.1 7 _ rfl rfl).2.2.2 { Status := 1 } rfl rfl
      (by decide)⟩

/-! ## The faucet -/

theorem waitMined_returns_no_error (client : EthClient) (tx : Transaction) (e : Err) :
    WaitMined client tx ≠ some (.error e) := by
  unfold WaitMined
  cases client.TransactionReceipt tx <;> simp

theorem faucet_sendTx_of_minedOk (f : faucet) (lib : Lib) (tx : Transaction)
    (h : f.minedOk tx) :
    f.sendTx lib tx =
      (some (lib.HashHex tx, none),
        [Event.sendTransaction tx, Event.waitMined tx,
          Event.log "confirmed tx %x with gasPrice = %v"
            [LogArg.str (lib.HashHex tx), LogArg.int64Of tx.gasPrice]]) := by
  obtain ⟨hsend, rc, hwait, hst⟩ := h
  simp [faucet.sendTx, WaitMined, hsend, hwait, hst]

theorem faucet_sendTx_of_no_receipt (f : faucet) (lib : Lib) (tx : Transaction)
    (hsend : f.client.SendTransaction tx = none)
    (hwait : f.client.TransactionReceipt tx = none) :
    f.sendTx lib tx = (none, [Event.sendTransaction tx, Event.waitMined tx]) := by
  simp [faucet.sendTx, WaitMined, hsend, hwait]

theorem faucet_sendTx_of_failure (f : faucet) (lib : Lib) (tx : Transaction)
    (h : (∃ e, f.client.SendTransaction tx = some e) ∨
      (f.client.SendTransaction tx = none ∧
        ∃ rc, f.client.TransactionReceipt tx = some rc ∧ rc.Status = 0)) :
    ∃ e, (f.sendTx lib tx).1 = some ("", some e) := by
  rcases h with ⟨e, hsend⟩ | ⟨hsend, rc, hwait, hst⟩
  · exact ⟨e, by simp [faucet.sendTx, hsend]⟩
  · exact ⟨.txFailed (lib.HashHex tx), by simp [faucet.sendTx, WaitMined, hsend, hwait, hst]⟩

theorem faucet_sendTx_no_answer (f : faucet) (lib : Lib) (tx : Transaction) :
    (∀ res, Event.jsonEncode res ∉ (f.sendTx lib tx).2) ∧
    (∀ msg code, Event.httpError msg code ∉ (f.sendTx lib tx).2) := by
  unfold faucet.sendTx
  cases f.client.SendTransaction tx with
  | some e => simp
  | none =>
    simp only [WaitMined]
    cases f.client.TransactionReceipt tx with
    | none => simp
    | some rc =>
      simp only
      split <;> simp

/-- C6: `faucet.createTx` with pending nonce n and suggested fee g returns the
transaction with nonce n, the given destination, the configured payout as
value, gas limit 21000, gas price g and an empty payload; if the nonce lookup
fails it returns that error without asking for a fee, and if the fee
suggestion fails it returns that error. -/
theorem faucet_createTx_fields (f : faucet) (dest : Address) :
    (∀ n g, f.client.PendingNonceAt f.account.Address = .ok n →
      f.client.SuggestGasPrice = .ok g →
      (f.createTx dest).1 =
        .ok { nonce := n, To := dest, amount := f.payout, gasLimit := 21000,
              gasPrice := g, data := [], vrs := none }) ∧
    (∀ e, f.client.PendingNonceAt f.account.Address = .error e →
      f.createTx dest = (.error e, [Event.pendingNonceAt f.account.Address])) ∧
    (∀ n e, f.client.PendingNonceAt f.account.Address = .ok n →
      f.client.SuggestGasPrice = .error e →
      (f.createTx dest).1 = .error e) := by
  refine ⟨?_, ?_, ?_⟩
  · intro n g hn hg
    simp [faucet.createTx, hn, hg, NewTransaction]
  · intro e hn
    simp [faucet.createTx, hn]
  · intro n e hn hg
    simp [faucet.createTx, hn, hg]

/-- C6, on the sample faucet: nonce 7, destination 99, payout 1, fee 3; with
a failing nonce lookup; and with a failing fee suggestion. -/
theorem faucet_createTx_fields_witness :
    (sampleFaucet.createTx 99).1 =
      .ok { nonce := 7, To := 99, amount := 1, gasLimit := 21000, gasPrice := 3,
            data := [], vrs := none } ∧
    (sampleFaucetWith (sampleClientWith (.error (.ext "timeout")) (.ok 3) none
        (some { Status := 1 }))).createTx 99
      = (.error (.ext "timeout"), [Event.pendingNonceAt 11]) ∧
    ((sampleFaucetWith (sampleClientWith (.ok 7) (.error (.ext "no fee")) none
        (some { Status := 1 }))).createTx 99).1 = .error (.ext "no fee") :=
  ⟨(faucet_createTx_fields sampleFaucet 99).1 7 3 rfl rfl,
   (faucet_createTx_fields _ 99).2.1 (.ext "timeout") rfl,
   (faucet_createTx_fields _ 99).2.2 7 (.ext "no fee") rfl rfl⟩

/-- C4 (the claim as stated fails here): the sample faucet with a ledger
client that accepts the submission and whose polls never yield a receipt.
The mined-wait does not succeed, yet `sendTx` returns no error, for it does
not return; and the handler, for a well-formed POST, writes neither an error
nor a txhash: the wait is the last thing it does. -/
theorem faucet_without_receipt_gives_no_error :
    (sampleFaucetWith (sampleClientWith (.ok 7) (.ok 3) none none)).sendTx sampleLib
        { nonce := 7, To := 5, amount := 1, gasLimit := 21000, gasPrice := 3, data := [],
          vrs := some (4, 1, 1) }
      = (none,
          [Event.sendTransaction
            { nonce := 7, To := 5, amount := 1, gasLimit := 21000, gasPrice := 3, data := [],
              vrs := some (4, 1, 1) },
           Event.waitMined
            { nonce := 7, To := 5, amount := 1, gasLimit := 21000, gasPrice := 3, data := [],
              vrs := some (4, 1, 1) }]) ∧
    (sampleFaucetWith (sampleClientWith (.ok 7) (.ok 3) none none)).faucetHandler sampleLib
        { Method := "POST", Body := "0xabc" }
      = [Event.jsonDecode "0xabc",
          Event.pendingNonceAt 11,
          Event.suggestGasPrice,
          Event.signTx { Address := 11 }
            { nonce := 7, To := 5, amount := 1, gasLimit := 21000, gasPrice := 3, data := [],
              vrs := none } 4,
          Event.sendTransaction
            { nonce := 7, To := 5, amount := 1, gasLimit := 21000, gasPrice := 3, data := [],
              vrs := some (4, 1, 1) },
          Event.waitMined
            { nonce := 7, To := 5, amount := 1, gasLimit := 21000, gasPrice := 3, data := [],
              vrs := some (4, 1, 1) }] := by
  constructor <;> rfl

/-- C4 (amended): `faucet.sendTx` returns the hash of the transaction, and no
error, when submission and mined-wait succeed and the receipt status is not
0; it returns the empty string with an error when the submission fails or the
receipt status is 0; the mined-wait returns no error, and when no poll yields
a receipt `sendTx` does not return.  For a POST request: when nonce lookup,
fee suggestion, signing, submission and mined-wait all succeed and the
receipt status is not 0, the handler answers with the hash of the signed
transaction and with no other txhash; when all but the wait succeed and no
poll yields a receipt, the wait is the last thing the handler does, and it
writes no txhash and no error other than that of a failed decoding; in every
other case it answers "Internal Server Error" with status 500 and with no
txhash. -/
theorem faucet_hash_only_after_confirmation (f : faucet) (lib : Lib) :
    (∀ tx,
      (f.minedOk tx → (f.sendTx lib tx).1 = some (lib.HashHex tx, none)) ∧
      ((∃ e, f.client.SendTransaction tx = some e) ∨
          (f.client.SendTransaction tx = none ∧
            ∃ rc, f.client.TransactionReceipt tx = some rc ∧ rc.Status = 0) →
        ∃ e, (f.sendTx lib tx).1 = some ("", some e)) ∧
      (f.client.SendTransaction tx = none → f.client.TransactionReceipt tx = none →
        (f.sendTx lib tx).1 = none) ∧
      (∀ e, WaitMined f.client tx ≠ some (.error e))) ∧
    (∀ r, r.Method = "POST" →
      (∀ signed, f.confirms (lib.HexToAddress (lib.Decode r.Body).1.Address) signed →
        Event.jsonEncode { TxHash := lib.HashHex signed } ∈ f.faucetHandler lib r ∧
        ∀ res, Event.jsonEncode res ∈ f.faucetHandler lib r →
          res = { TxHash := lib.HashHex signed }) ∧
      (∀ signed, f.waitsForever (lib.HexToAddress (lib.Decode r.Body).1.Address) signed →
        (f.faucetHandler lib r).getLast? = some (Event.waitMined signed) ∧
        (∀ res, Event.jsonEncode res ∉ f.faucetHandler lib r) ∧
        (∀ msg code, Event.httpError msg code ∈ f.faucetHandler lib r →
          ∃ e, (lib.Decode r.Body).2 = some e ∧ msg = e.Error ∧ code = 500)) ∧
      ((¬ ∃ signed, f.confirms (lib.HexToAddress (lib.Decode r.Body).1.Address) signed) →
        (¬ ∃ signed,
          f.waitsForever (lib.HexToAddress (lib.Decode r.Body).1.Address) signed) →
        Event.httpError "Internal Server Error" 500 ∈ f.faucetHandler lib r ∧
        ∀ res, Event.jsonEncode res ∉ f.faucetHandler lib r)) := by
  refine ⟨fun tx => ⟨fun h => ?_, faucet_sendTx_of_failure f lib tx, fun h1 h2 => ?_,
    waitMined_returns_no_error f.client tx⟩, ?_⟩
  · rw [faucet_sendTx_of_minedOk f lib tx h]
  · rw [faucet_sendTx_of_no_receipt f lib tx h1 h2]
  · intro r hPost
    have hGet : r.Method ≠ "GET" := by rw [hPost]; decide
    rcases hd : lib.Decode r.Body with ⟨req, derr⟩
    cases hn : f.client.PendingNonceAt f.account.Address with
    | error e0 =>
      cases derr <;>
        simp [faucet.faucetHandler, faucet.createTx, faucet.confirms, faucet.waitsForever,
          hPost, hd, hn]
    | ok n0 =>
      cases hg : f.client.SuggestGasPrice with
      | error e1 =>
        cases derr <;>
          simp [faucet.faucetHandler, faucet.createTx, faucet.confirms, faucet.waitsForever,
            hPost, hd, hn, hg]
      | ok g0 =>
        cases hs : f.wallet.SignTx f.account
            (NewTransaction n0 (lib.HexToAddress req.Address) f.payout 21000 g0 [])
            f.network with
        | error e2 =>
          cases derr <;>
            simp [faucet.faucetHandler, faucet.createTx, faucet.signTx, faucet.confirms,
              faucet.waitsForever, hPost, hd, hn, hg, hs]
        | ok signed0 =>
          obtain ⟨hnoJ, hnoE⟩ := faucet_sendTx_no_answer f lib signed0
          have hc : ∀ signed,
              f.confirms (lib.HexToAddress req.Address) signed →
                signed = signed0 ∧ f.minedOk signed0 := by
            intro signed ⟨n, g, h1, h2, h3, h4⟩
            rw [hn] at h1
            rw [hg] at h2
            cases h1
            cases h2
            rw [hs] at h3
            cases h3
            exact ⟨rfl, h4⟩
          have hwf : ∀ signed,
              f.waitsForever (lib.HexToAddress req.Address) signed →
                signed = signed0 ∧ f.client.SendTransaction signed0 = none ∧
                  f.client.TransactionReceipt signed0 = none := by
            intro signed ⟨n, g, h1, h2, h3, h4, h5⟩
            rw [hn] at h1
            rw [hg] at h2
            cases h1
            cases h2
            rw [hs] at h3
            cases h3
            exact ⟨rfl, h4, h5⟩
          by_cases hm : f.minedOk signed0
          · have hq := faucet_sendTx_of_minedOk f lib signed0 hm
            have hex : ∃ signed, f.confirms (lib.HexToAddress req.Address) signed :=
              ⟨signed0, n0, g0, hn, hg, hs, hm⟩
            have htr : ∀ res, Event.jsonEncode res ∈ f.faucetHandler lib r ↔
                res = { TxHash := lib.HashHex signed0 } := by
              intro res
              cases derr <;>
                simp [faucet.faucetHandler, faucet.createTx, faucet.signTx, hPost, hd, hn,
                  hg, hs, hq]
            refine ⟨fun signed hsig => ?_, fun signed hsig => ?_, fun hne => absurd hex hne⟩
            · rw [(hc signed hsig).1]
              exact ⟨(htr _).2 rfl, fun res hres => (htr res).1 hres⟩
            · obtain ⟨-, -, hrc⟩ := hwf signed hsig
              obtain ⟨-, rc, hrc2, -⟩ := hm
              rw [hrc] at hrc2
              cases hrc2
          · have hnc : ¬ ∃ signed, f.confirms (lib.HexToAddress req.Address) signed :=
              fun ⟨signed, hsig⟩ => hm (hc signed hsig).2
            by_cases hwt : f.client.SendTransaction signed0 = none ∧
                f.client.TransactionReceipt signed0 = none
            · have hq := faucet_sendTx_of_no_receipt f lib signed0 hwt.1 hwt.2
              have hex : ∃ signed, f.waitsForever (lib.HexToAddress req.Address) signed :=
                ⟨signed0, n0, g0, hn, hg, hs, hwt.1, hwt.2⟩
              refine ⟨fun signed hsig => absurd ⟨signed, hsig⟩ hnc, fun signed hsig => ?_,
                fun _ hne => absurd hex hne⟩
              rw [(hwf signed hsig).1]
              cases derr <;>
                simp [faucet.faucetHandler, faucet.createTx, faucet.signTx, hPost, hd, hn,
                  hg, hs, hq]
            · have hfail : (∃ e, f.client.SendTransaction signed0 = some e) ∨
                  (f.client.SendTransaction signed0 = none ∧
                    ∃ rc, f.client.TransactionReceipt signed0 = some rc ∧ rc.Status = 0) := by
                cases hsend : f.client.SendTransaction signed0 with
                | some e => exact Or.inl ⟨e, rfl⟩
                | none =>
                  cases hrc : f.client.TransactionReceipt signed0 with
                  | none => exact absurd ⟨hsend, hrc⟩ hwt
                  | some rc =>
                    refine Or.inr ⟨rfl, rc, rfl, ?_⟩
                    by_contra hne
                    exact hm ⟨hsend, rc, hrc, hne⟩
              obtain ⟨e3, hq1⟩ := faucet_sendTx_of_failure f lib signed0 hfail
              rcases hq : f.sendTx lib signed0 with ⟨res0, t3⟩
              rw [hq] at hq1 hnoJ hnoE
              simp only at hq1 hnoJ hnoE
              subst hq1
              refine ⟨fun signed hsig => absurd ⟨signed, hsig⟩ hnc,
                fun signed hsig => absurd (hwf signed hsig).2 hwt, fun _ _ => ?_⟩
              cases derr <;>
                simp [faucet.faucetHandler, faucet.createTx, faucet.signTx, hPost, hd, hn,
                  hg, hs, hq, hnoJ]

/-- C4 (amended), on the sample faucet: a POST whose pipeline succeeds is
answered with the hash; with a receipt of status 0 the answer is "Internal
Server Error" and `sendTx` returns the empty string and an error; and with
polls that never yield a receipt the handler writes no txhash and `sendTx`
does not return. -/
theorem faucet_hash_only_after_confirmation_witness :
    Event.jsonEncode { TxHash := "0x5e1f" }
        ∈ sampleFaucet.faucetHandler sampleLib { Method := "POST", Body := "0xabc" } ∧
    Event.httpError "Internal Server Error" 500
        ∈ (sampleFaucetWith (sampleClientWith (.ok 7) (.ok 3) none
            (some { Status := 0 }))).faucetHandler sampleLib
              { Method := "POST", Body := "0xabc" } ∧
    (∃ e, ((sampleFaucetWith (sampleClientWith (.ok 7) (.ok 3) none
            (some { Status := 0 }))).sendTx sampleLib
              (NewTransaction 7 5 1 21000 3 [])).1 = some ("", some e)) ∧
    (∀ res, Event.jsonEncode res
        ∉ (sampleFaucetWith (sampleClientWith (.ok 7) (.ok 3) none none)).faucetHandler
            sampleLib { Method := "POST", Body := "0xabc" }) ∧
    ((sampleFaucetWith (sampleClientWith (.ok 7) (.ok 3) none none)).sendTx sampleLib
        (NewTransaction 7 5 1 21000 3 [])).1 = none ∧
    (sampleFaucet.sendTx sampleLib (NewTransaction 7 5 1 21000 3 [])).1
      = some ("0x5e1f", none) :=
  ⟨(((faucet_hash_only_after_confirmation sampleFaucet sampleLib).2
        { Method := "POST", Body := "0xabc" } rfl).1
      { nonce := 7, To := 5, amount := 1, gasLimit := 21000, gasPrice := 3, data := [],
        vrs := some (4, 1, 1) }
      ⟨7, 3, rfl, rfl, rfl, rfl, { Status := 1 }, rfl, by decide⟩).1,
   (((faucet_hash_only_after_confirmation _ sampleLib).2
        { Method := "POST", Body := "0xabc" } rfl).2.2
      (by
        rintro ⟨signed, n, g, -, -, -, -, rc, hw, hst⟩
        simp [sampleFaucetWith, sampleClientWith] at hw
        exact hst (by rw [← hw]))
      (by
        rintro ⟨signed, n, g, -, -, -, -, hw⟩
        simp [sampleFaucetWith, sampleClientWith] at hw)).1,
   ((faucet_hash_only_after_confirmation _ sampleLib).1 (NewTransaction 7 5 1 21000 3 [])).2.1
      (Or.inr ⟨rfl, { Status := 0 }, rfl, rfl⟩),
   ((((faucet_hash_only_after_confirmation _ sampleLib).2
        { Method := "POST", Body := "0xabc" } rfl).2.1
      { nonce := 7, To := 5, amount := 1, gasLimit := 21000, gasPrice := 3, data := [],
        vrs := some (4, 1, 1) }
      ⟨7, 3, rfl, rfl, rfl, rfl, rfl⟩).2.1),
   ((faucet_hash_only_after_confirmation _ sampleLib).1
      (NewTransaction 7 5 1 21000 3 [])).2.2.1 rfl rfl,
   ((faucet_hash_only_after_confirmation sampleFaucet sampleLib).1
      (NewTransaction 7 5 1 21000 3 [])).1 ⟨rfl, { Status := 1 }, rfl, by decide⟩⟩

/-- C10 (evaluation of the code): a POST whose body "not json" fails to
decode, with a ledger client and a wallet that succeed.  The handler reports
the decode error with status 500 and then carries on: it looks up the nonce,
asks for a fee, has a payout to the zero address signed, submits it, waits for
it and writes the txhash. -/
theorem faucetHandler_continues_after_decode_error :
    sampleFaucet.faucetHandler sampleLib { Method := "POST", Body := "not json" } =
      [Event.jsonDecode "not json",
        Event.httpError "invalid character" 500,
        Event.pendingNonceAt 11,
        Event.suggestGasPrice,
        Event.signTx { Address := 11 }
          { nonce := 7, To := 0, amount := 1, gasLimit := 21000, gasPrice := 3, data := [],
            vrs := none } 4,
        Event.sendTransaction
          { nonce := 7, To := 0, amount := 1, gasLimit := 21000, gasPrice := 3, data := [],
            vrs := some (4, 1, 1) },
        Event.waitMined
          { nonce := 7, To := 0, amount := 1, gasLimit := 21000, gasPrice := 3, data := [],
            vrs := some (4, 1, 1) },
        Event.log "confirmed tx %x with gasPrice = %v"
          [LogArg.str "0x5e1f", LogArg.int64Of 3],
        Event.headerSet "Content-Type" "application/json",
        Event.jsonEncode { TxHash := "0x5e1f" }] := by
  rfl
